import Mathlib

/-!
Shallow embedding of the application/job lifecycle core of the
autoapplyjob backend: the Application state machine (Application.model
pre-save timeline hook, user withdraw / status update, admin status
update, apply-on-behalf), the job store operations (saveJob, unsaveJob,
applyToJob), the match scorer (jobSchema.statics.calculateMatchScore),
and the scraping session orchestrator (processScrapingResults,
cancelScraping).
-/

deriving instance DecidableEq for Except

namespace AutoApply

/-- The 14-value Application status enum from Application.model. -/
inductive AppStatus where
  | pending_review
  | approved
  | rejected
  | applied
  | application_sent
  | viewed
  | interview_requested
  | interview_scheduled
  | interview_completed
  | offer_received
  | offer_accepted
  | offer_rejected
  | rejected_by_employer
  | withdrawn
deriving DecidableEq

/-- One entry of the Application timeline array: the schema declares
status, timestamp, note and updatedBy. Actor ids are modelled as Nat,
timestamps as Nat. -/
structure TimelineEntry where
  status : AppStatus
  timestamp : Nat
  note : Option String
  updatedBy : Option Nat
deriving DecidableEq

/-- The Application document (the fields the lifecycle logic touches). -/
structure Application where
  user : Nat
  job : Nat
  status : AppStatus
  matchScore : Int
  adminNotes : Option String
  userNotes : Option String
  coverLetter : Option String
  applicationMethod : String
  withdrawalReason : Option String
  reviewedBy : Option Nat
  reviewedAt : Option Nat
  appliedBy : Option Nat
  appliedAt : Option Nat
  statusUpdatedAt : Option Nat
  timeline : List TimelineEntry
deriving DecidableEq

/-- JS `this.reviewedBy || this.appliedBy`: first operand when set
(truthy), otherwise the second. -/
def orActor : Option Nat → Option Nat → Option Nat
  | some r, _ => some r
  | none, b => b

/-- Mongoose save with the pre("save") hook of Application.model:
if the status differs from the persisted one (`isModified("status")`;
`oldStatus = none` for a newly created document, whose set fields are
all modified), push `{status, timestamp: now, updatedBy: reviewedBy ||
appliedBy}` onto the timeline. The hook sets no note. -/
def saveApplication (now : Nat) (oldStatus : Option AppStatus) (a : Application) : Application :=
  if oldStatus ≠ some a.status then
    { a with timeline :=
        a.timeline ++ [⟨a.status, now, none, orActor a.reviewedBy a.appliedBy⟩] }
  else a

/-- JS `if (x) field = x`: overwrite only when the value is present. -/
def setIfPresent (new old : Option String) : Option String :=
  match new with
  | some r => some r
  | none => old

/-- AppError(message, statusCode) from error.middleware. -/
structure AppError where
  message : String
  statusCode : Nat
deriving DecidableEq

/-- Creation path of saveJob / applyToJob: `new Application({user, job,
matchScore, status: "pending_review"})` followed by `save()`. -/
def newApplication (now u j : Nat) (score : Int) : Application :=
  saveApplication now none
    { user := u, job := j, status := AppStatus.pending_review, matchScore := score,
      adminNotes := none, userNotes := none, coverLetter := none,
      applicationMethod := "auto", withdrawalReason := none,
      reviewedBy := none, reviewedAt := none, appliedBy := none, appliedAt := none,
      statusUpdatedAt := none, timeline := [] }

/-- withdrawApplication (application.controller, dedicated endpoint):
reject only when the status is already `withdrawn`; otherwise set
status to withdrawn, record the optional reason, and save. -/
def withdrawApplication (now : Nat) (reason : Option String) (a : Application) :
    Except AppError Application :=
  if a.status = AppStatus.withdrawn then
    Except.error ⟨"Application is already withdrawn", 400⟩
  else
    Except.ok (saveApplication now (some a.status)
      { a with status := AppStatus.withdrawn, statusUpdatedAt := some now,
               withdrawalReason := setIfPresent reason a.withdrawalReason })

/-- updateApplicationStatus (application.controller, user endpoint):
only "withdrawn" is accepted; rejects when already withdrawn; then
sets the status and saves. -/
def updateApplicationStatusUser (now : Nat) (status : AppStatus) (a : Application) :
    Except AppError Application :=
  if status ≠ AppStatus.withdrawn then
    Except.error ⟨"You can only withdraw your applications", 400⟩
  else if a.status = AppStatus.withdrawn then
    Except.error ⟨"Application is already withdrawn", 400⟩
  else
    Except.ok (saveApplication now (some a.status)
      { a with status := status, statusUpdatedAt := some now })

/-- updateApplicationStatus (ai.routes, admin endpoint), the mutation on
the found document: sets status unconditionally (no state check),
records reviewedBy/reviewedAt, keeps adminNotes unless provided, saves. -/
def adminUpdateApp (now adminId : Nat) (status : AppStatus) (adminNotes : Option String)
    (a : Application) : Application :=
  saveApplication now (some a.status)
    { a with status := status, reviewedBy := some adminId, reviewedAt := some now,
             adminNotes := setIfPresent adminNotes a.adminNotes }

/-- updateApplicationStatus (ai.routes, admin endpoint): once the
document is found there is no status precondition, so the update always
succeeds. -/
def updateApplicationStatusAdmin (now adminId : Nat) (status : AppStatus)
    (adminNotes : Option String) (a : Application) : Except AppError Application :=
  Except.ok (adminUpdateApp now adminId status adminNotes a)

/-- The per-application mutation of applyToJobOnBehalf (ai.routes):
gate on status = approved, then set applied / appliedBy / appliedAt and
save. -/
def applyOnBehalfUpdate (now adminId : Nat) (a : Application) : Except AppError Application :=
  if a.status ≠ AppStatus.approved then
    Except.error ⟨"Application must be approved before applying", 400⟩
  else
    Except.ok (saveApplication now (some a.status)
      { a with status := AppStatus.applied, appliedBy := some adminId,
               appliedAt := some now })

/-- addApplicationNotes (application.controller): set userNotes and
save; the status is untouched. -/
def addApplicationNotes (now : Nat) (notes : String) (a : Application) :
    Except AppError Application :=
  Except.ok (saveApplication now (some a.status) { a with userNotes := some notes })

/-! ### Application store (the Application collection) -/

/-- The Job fields the application endpoints consult. -/
structure StoredJob where
  id : Nat
  targetUser : Nat
  matchScore : Int
  status : String
  adminReviewStatus : String
  applicationStatus : String
deriving DecidableEq

/-- Lookup `Application.findOne({user, job})`. -/
def findApp (store : List Application) (u j : Nat) : Option Application :=
  store.find? (fun a => a.user == u && a.job == j)

/-- Persisting a changed application back into the collection. -/
def updateApp (store : List Application) (u j : Nat) (a2 : Application) : List Application :=
  store.map (fun a => if a.user == u && a.job == j then a2 else a)

/-- The check phase of saveJob: `Application.findOne({user, job})`. -/
def saveJobCheck (store : List Application) (u j : Nat) : Option Application :=
  findApp store u j

/-- The insert phase of saveJob: `new Application(...).save()`. -/
def saveJobInsert (now u j : Nat) (score : Int) (store : List Application) :
    List Application :=
  store ++ [newApplication now u j score]

/-- saveJob (job.controller): 404 when the job does not exist, 403 when
it targets another user, 409 when an Application for the pair already
exists, else insert a pending_review Application. -/
def saveJob (now userId jobId : Nat) (jobs : List StoredJob) (store : List Application) :
    Except AppError (List Application) :=
  match jobs.find? (fun jb => jb.id == jobId) with
  | none => Except.error ⟨"Job not found", 404⟩
  | some job =>
    if job.targetUser ≠ userId then
      Except.error ⟨"You can only save jobs targeted to you", 403⟩
    else
      match saveJobCheck store userId jobId with
      | some _ => Except.error ⟨"You have already saved or applied to this job", 409⟩
      | none => Except.ok (saveJobInsert now userId jobId job.matchScore store)

/-- applyToJob (job.controller, user endpoint): job must exist, target
the user, be active and approved; a second creation attempt for the
pair fails with a 400 error; else insert a pending_review Application. -/
def applyToJob (now userId jobId : Nat) (jobs : List StoredJob)
    (store : List Application) : Except AppError (List Application) :=
  match jobs.find? (fun jb => jb.id == jobId) with
  | none => Except.error ⟨"Job not found", 404⟩
  | some job =>
    if job.targetUser ≠ userId then
      Except.error ⟨"Job not found", 404⟩
    else if job.status ≠ "active" ∨ job.adminReviewStatus ≠ "approved" then
      Except.error ⟨"Job is not available for application", 400⟩
    else
      match findApp store userId jobId with
      | some _ => Except.error ⟨"You have already applied to this job", 400⟩
      | none => Except.ok (saveJobInsert now userId jobId job.matchScore store)

/-- Remove the first element satisfying the predicate (Mongoose
`document.deleteOne()` on the found document). -/
def removeFirst (p : Application → Bool) : List Application → List Application
  | [] => []
  | a :: rest => if p a then rest else a :: removeFirst p rest

/-- The find predicate of unsaveJob:
`{user, job, status: "pending_review"}`. -/
def unsavePred (userId jobId : Nat) (a : Application) : Bool :=
  a.user == userId && a.job == jobId && a.status == AppStatus.pending_review

/-- unsaveJob (job.controller): find the pending_review Application for
the pair; 404 when absent; otherwise physically delete it. -/
def unsaveJob (userId jobId : Nat) (store : List Application) :
    Except AppError (List Application) :=
  match store.find? (unsavePred userId jobId) with
  | none => Except.error ⟨"Job not found in your saved list", 404⟩
  | some _ => Except.ok (removeFirst (unsavePred userId jobId) store)

/-- applyToJobOnBehalf (ai.routes): verify user and job exist, the job
targets the user, an Application exists; gate on approved; on success
persist the applied Application and mark the job applied. -/
def applyToJobOnBehalf (now adminId userId jobId : Nat) (users : List Nat)
    (jobs : List StoredJob) (store : List Application) :
    Except AppError (List Application × List StoredJob) :=
  if users.contains userId = false then Except.error ⟨"User not found", 404⟩
  else
    match jobs.find? (fun jb => jb.id == jobId) with
    | none => Except.error ⟨"Job not found", 404⟩
    | some job =>
      if job.targetUser ≠ userId then
        Except.error ⟨"Job does not belong to this user", 400⟩
      else
        match findApp store userId jobId with
        | none => Except.error ⟨"No application found for this job", 404⟩
        | some a =>
          match applyOnBehalfUpdate now adminId a with
          | Except.error e => Except.error e
          | Except.ok a2 =>
            Except.ok (updateApp store userId jobId a2,
              jobs.map (fun jb =>
                if jb.id == jobId then { jb with applicationStatus := "applied" } else jb))

/-- The index declarations on applicationSchema (Application.model):
`schema.index(keys)` with no options, so none is unique. -/
structure IndexSpec where
  keys : List (String × Int)
  unique : Bool
deriving DecidableEq

/-- The eight `applicationSchema.index(...)` calls, in source order. -/
def applicationIndexes : List IndexSpec :=
  [⟨[("user", 1)], false⟩,
   ⟨[("job", 1)], false⟩,
   ⟨[("status", 1)], false⟩,
   ⟨[("appliedAt", -1)], false⟩,
   ⟨[("matchScore", -1)], false⟩,
   ⟨[("priority", -1)], false⟩,
   ⟨[("user", 1), ("status", 1)], false⟩,
   ⟨[("status", 1), ("appliedAt", -1)], false⟩]

/-- Reachability of an Application through the lifecycle operations,
with the ghost list `held` of every status the application has been
given (in order, starting from creation). -/
inductive Reached : Application → List AppStatus → Prop where
  | created (now u j : Nat) (score : Int) :
      Reached (newApplication now u j score) [AppStatus.pending_review]
  | withdraw {a a2 : Application} {held : List AppStatus} {now : Nat}
      {reason : Option String} :
      Reached a held → withdrawApplication now reason a = Except.ok a2 →
      Reached a2 (held ++ [AppStatus.withdrawn])
  | userStatus {a a2 : Application} {held : List AppStatus} {now : Nat}
      {s : AppStatus} :
      Reached a held → updateApplicationStatusUser now s a = Except.ok a2 →
      Reached a2 (held ++ [s])
  | adminStatus {a a2 : Application} {held : List AppStatus} {now adminId : Nat}
      {s : AppStatus} {notes : Option String} :
      Reached a held → updateApplicationStatusAdmin now adminId s notes a = Except.ok a2 →
      Reached a2 (held ++ [s])
  | applyBehalf {a a2 : Application} {held : List AppStatus} {now adminId : Nat} :
      Reached a held → applyOnBehalfUpdate now adminId a = Except.ok a2 →
      Reached a2 (held ++ [AppStatus.applied])
  | notes {a a2 : Application} {held : List AppStatus} {now : Nat} {notes : String} :
      Reached a held → addApplicationNotes now notes a = Except.ok a2 →
      Reached a2 held

/-! ### Match scorer (jobSchema.statics.calculateMatchScore) -/

/-- Leading-segment test on character lists (helper for JS
String.prototype.includes). -/
def charListLeads : List Char → List Char → Bool
  | [], _ => true
  | _ :: _, [] => false
  | a :: as, b :: bs => a == b && charListLeads as bs

/-- JS `hay.includes(needle)` on character lists. -/
def charListHasSub (needle : List Char) : List Char → Bool
  | [] => charListLeads needle []
  | c :: t => charListLeads needle (c :: t) || charListHasSub needle t

/-- JS `hay.includes(needle)`. -/
def strIncludes (hay needle : String) : Bool :=
  charListHasSub needle.data hay.data

/-- The Job fields read by calculateMatchScore. A missing/empty JS
string field is modelled as "". -/
structure ScoreJob where
  skills : List String
  location : String
  workType : String
  jobType : String
deriving DecidableEq

/-- The user-profile fields read by calculateMatchScore. A missing
jobPreferences sub-list is modelled as []. -/
structure ScoreProfile where
  skills : List String
  preferredLocations : List String
  preferredJobTypes : List String
  preferredWorkTypes : List String
deriving DecidableEq

/-- JS String.prototype.toLowerCase, on the ASCII range the scorer
compares. -/
def lowerChar (c : Char) : Char :=
  if 'A' ≤ c ∧ c ≤ 'Z' then Char.ofNat (c.toNat + 32) else c

/-- Lower-casing of a whole string. -/
def lowerStr (s : String) : String := ⟨s.data.map lowerChar⟩

/-- Lower-cased job skills: `job.skills.map(s => s.toLowerCase())`. -/
def jobSkillsLower (job : ScoreJob) : List String := job.skills.map lowerStr

/-- The user skills occurring among the job skills, case-insensitively,
repeats kept: `userSkills.filter(skill => jobSkills.includes(skill))`. -/
def matchingSkills (job : ScoreJob) (profile : ScoreProfile) : List String :=
  (profile.skills.map lowerStr).filter (fun s => (jobSkillsLower job).contains s)

/-- Skills component: guarded by both lists non-empty; the matching
count divided by the job's skill count, times 40. -/
def skillsScore (job : ScoreJob) (profile : ScoreProfile) : ℚ :=
  if job.skills ≠ [] ∧ profile.skills ≠ [] then
    ((matchingSkills job profile).length : ℚ) / ((jobSkillsLower job).length : ℚ) * 40
  else 0

/-- Substring location match: `preferredLocations.some(loc =>
job.location.toLowerCase().includes(loc.toLowerCase()) ||
loc.toLowerCase().includes(job.location.toLowerCase()))`. -/
def isLocationMatch (job : ScoreJob) (profile : ScoreProfile) : Bool :=
  profile.preferredLocations.any (fun loc =>
    strIncludes (lowerStr job.location) (lowerStr loc) ||
      strIncludes (lowerStr loc) (lowerStr job.location))

/-- Location component: guarded by `job.location &&
profile.preferredLocations?.length`; inside the guard, 20 points for an
either-direction case-insensitive substring match or a remote job. -/
def locationScore (job : ScoreJob) (profile : ScoreProfile) : ℚ :=
  if job.location ≠ "" ∧ profile.preferredLocations ≠ [] then
    if isLocationMatch job profile || job.workType == "remote" then 20 else 0
  else 0

/-- Job-type component: 20 points when the job type is set and among
the preferred job types. -/
def jobTypeScore (job : ScoreJob) (profile : ScoreProfile) : ℚ :=
  if job.jobType ≠ "" ∧ profile.preferredJobTypes.contains job.jobType then 20 else 0

/-- Work-type component: 20 points when the work type is set and among
the preferred work types. -/
def workTypeScore (job : ScoreJob) (profile : ScoreProfile) : ℚ :=
  if job.workType ≠ "" ∧ profile.preferredWorkTypes.contains job.workType then 20 else 0

/-- JS Math.round: floor of x + 1/2. -/
def jsRound (q : ℚ) : ℤ := ⌊q + 1 / 2⌋

/-- jobSchema.statics.calculateMatchScore:
`Math.min(Math.round(score), 100)` over the four components. -/
def calculateMatchScore (job : ScoreJob) (profile : ScoreProfile) : ℤ :=
  min (jsRound (skillsScore job profile + locationScore job profile +
    jobTypeScore job profile + workTypeScore job profile)) 100

/-- Scenario A job: skills python/sql, remote, full_time. -/
def scenarioAJob : ScoreJob :=
  { skills := ["python", "sql"], location := "", workType := "remote",
    jobType := "full_time" }

/-- Scenario A profile: skills python/java, preferred job type
full_time, preferred work type remote, no preferred locations. -/
def scenarioAProfile : ScoreProfile :=
  { skills := ["python", "java"], preferredLocations := [],
    preferredJobTypes := ["full_time"], preferredWorkTypes := ["remote"] }

/-! ### Scraping ingestion (scraping.service processScrapingResults) -/

/-- One raw posting from the scraper response; missing JS string fields
are "". -/
structure RawPosting where
  title : String
  company : String
  location : String
  workType : String
  jobType : String
  skills : List String
deriving DecidableEq

/-- The Job-document fields relevant to ingestion. -/
structure IngJob where
  targetUser : Nat
  title : String
  company : String
  location : String
  workType : String
  jobType : String
  skills : List String
  matchScore : Int
  status : String
  adminReviewStatus : String
deriving DecidableEq

/-- The dedup lookup of processScrapingResults:
`Job.findOne({targetUser, title, company, location})`, exact match. -/
def matchesDedupKey (u : Nat) (p : RawPosting) (j : IngJob) : Bool :=
  j.targetUser == u && j.title == p.title && j.company == p.company &&
    j.location == p.location

/-- Construction of the Job document for a posting: workType defaults
to "onsite" and jobType to "full_time" when absent; status active,
adminReviewStatus pending; matchScore from calculateMatchScore with the
current profile. -/
def mkIngJob (u : Nat) (profile : ScoreProfile) (p : RawPosting) : IngJob :=
  let workType := if p.workType = "" then "onsite" else p.workType
  let jobType := if p.jobType = "" then "full_time" else p.jobType
  { targetUser := u, title := p.title, company := p.company, location := p.location,
    workType := workType, jobType := jobType, skills := p.skills,
    matchScore := calculateMatchScore
      { skills := p.skills, location := p.location, workType := workType,
        jobType := jobType } profile,
    status := "active", adminReviewStatus := "pending" }

/-- The jobsSaved / duplicatesSkipped counters of the ingestion loop. -/
structure IngestCounts where
  jobsSaved : Nat
  duplicatesSkipped : Nat
deriving DecidableEq

/-- One iteration of the ingestion loop: skip and count a duplicate, or
persist a new Job and count a save. -/
def ingestPosting (u : Nat) (profile : ScoreProfile) :
    List IngJob × IngestCounts → RawPosting → List IngJob × IngestCounts
  | (store, c), p =>
    match store.find? (matchesDedupKey u p) with
    | some _ => (store, { c with duplicatesSkipped := c.duplicatesSkipped + 1 })
    | none => (store ++ [mkIngJob u profile p], { c with jobsSaved := c.jobsSaved + 1 })

/-- The ingestion loop of processScrapingResults over one batch,
against the current Job store. -/
def processBatch (u : Nat) (profile : ScoreProfile) (store : List IngJob)
    (batch : List RawPosting) : List IngJob × IngestCounts :=
  batch.foldl (ingestPosting u profile) (store, ⟨0, 0⟩)

/-! ### Scraping session lifecycle (ScrapingLog status) -/

/-- ScrapingLog status enum. -/
inductive SessStatus where
  | initiated
  | in_progress
  | completed
  | failed
  | cancelled
deriving DecidableEq

/-- The ScrapingLog fields the lifecycle logic touches. -/
structure ScrapingLog where
  sessionId : Nat
  status : SessStatus
  jobsSaved : Nat
  duplicatesSkipped : Nat
deriving DecidableEq

/-- The final log update of processScrapingResults: the status is set
to completed unconditionally, with the counters from the loop. -/
def finishProcessing (log : ScrapingLog) (c : IngestCounts) : ScrapingLog :=
  { log with status := SessStatus.completed, jobsSaved := c.jobsSaved,
             duplicatesSkipped := c.duplicatesSkipped }

/-- cancelScraping (scraping.service): rejected only when the session
is completed or failed; otherwise the status becomes cancelled. -/
def cancelScraping (log : ScrapingLog) : Except String ScrapingLog :=
  if log.status = SessStatus.completed ∨ log.status = SessStatus.failed then
    Except.error "Cannot cancel completed or failed scraping session"
  else
    Except.ok { log with status := SessStatus.cancelled }

/-! ## Helper lemmas -/

/-- Evaluation of the Scenario A score on the embedded scorer. -/
lemma scenarioA_score : calculateMatchScore scenarioAJob scenarioAProfile = 60 := by
  have hs : skillsScore scenarioAJob scenarioAProfile = 20 := by
    have h1 : matchingSkills scenarioAJob scenarioAProfile = ["python"] := by decide
    have h2 : jobSkillsLower scenarioAJob = ["python", "sql"] := by decide
    unfold skillsScore
    rw [h1, h2]
    simp [scenarioAJob, scenarioAProfile]
    norm_num
  have hl : locationScore scenarioAJob scenarioAProfile = 0 := by
    simp [locationScore, scenarioAJob, scenarioAProfile]
  have hj : jobTypeScore scenarioAJob scenarioAProfile = 20 := by
    simp [jobTypeScore, scenarioAJob, scenarioAProfile]
  have hw : workTypeScore scenarioAJob scenarioAProfile = 20 := by
    simp [workTypeScore, scenarioAJob, scenarioAProfile]
  unfold calculateMatchScore
  rw [hs, hl, hj, hw]
  unfold jsRound
  norm_num

lemma skillsScore_nonneg (job : ScoreJob) (profile : ScoreProfile) :
    0 ≤ skillsScore job profile := by
  unfold skillsScore
  split
  · positivity
  · exact le_refl 0

lemma locationScore_nonneg (job : ScoreJob) (profile : ScoreProfile) :
    0 ≤ locationScore job profile := by
  unfold locationScore
  split
  · split <;> norm_num
  · norm_num

lemma jobTypeScore_nonneg (job : ScoreJob) (profile : ScoreProfile) :
    0 ≤ jobTypeScore job profile := by
  unfold jobTypeScore
  split <;> norm_num

lemma workTypeScore_nonneg (job : ScoreJob) (profile : ScoreProfile) :
    0 ≤ workTypeScore job profile := by
  unfold workTypeScore
  split <;> norm_num

lemma saveApplication_of_ne {now : Nat} {old : Option AppStatus} {a : Application}
    (h : old ≠ some a.status) :
    saveApplication now old a =
      { a with timeline :=
          a.timeline ++ [⟨a.status, now, none, orActor a.reviewedBy a.appliedBy⟩] } := by
  unfold saveApplication
  rw [if_pos h]

lemma saveApplication_status (now : Nat) (old : Option AppStatus) (a : Application) :
    (saveApplication now old a).status = a.status := by
  unfold saveApplication
  split <;> rfl

lemma saveApplication_user (now : Nat) (old : Option AppStatus) (a : Application) :
    (saveApplication now old a).user = a.user := by
  unfold saveApplication
  split <;> rfl

lemma saveApplication_job (now : Nat) (old : Option AppStatus) (a : Application) :
    (saveApplication now old a).job = a.job := by
  unfold saveApplication
  split <;> rfl

lemma saveApplication_appliedBy (now : Nat) (old : Option AppStatus) (a : Application) :
    (saveApplication now old a).appliedBy = a.appliedBy := by
  unfold saveApplication
  split <;> rfl

lemma saveApplication_appliedAt (now : Nat) (old : Option AppStatus) (a : Application) :
    (saveApplication now old a).appliedAt = a.appliedAt := by
  unfold saveApplication
  split <;> rfl

lemma withdrawApplication_ok {now : Nat} {reason : Option String} {a a2 : Application}
    (h : withdrawApplication now reason a = Except.ok a2) :
    a.status ≠ AppStatus.withdrawn ∧
    a2 = saveApplication now (some a.status)
      { a with status := AppStatus.withdrawn, statusUpdatedAt := some now,
               withdrawalReason := setIfPresent reason a.withdrawalReason } := by
  unfold withdrawApplication at h
  by_cases hs : a.status = AppStatus.withdrawn
  · rw [if_pos hs] at h
    exact absurd h (by simp)
  · rw [if_neg hs] at h
    injection h with h2
    exact ⟨hs, h2.symm⟩

lemma updateApplicationStatusUser_ok {now : Nat} {s : AppStatus} {a a2 : Application}
    (h : updateApplicationStatusUser now s a = Except.ok a2) :
    s = AppStatus.withdrawn ∧ a.status ≠ AppStatus.withdrawn ∧
    a2 = saveApplication now (some a.status)
      { a with status := s, statusUpdatedAt := some now } := by
  unfold updateApplicationStatusUser at h
  by_cases h1 : s = AppStatus.withdrawn
  · rw [if_neg (by simp [h1])] at h
    by_cases hs : a.status = AppStatus.withdrawn
    · rw [if_pos hs] at h
      exact absurd h (by simp)
    · rw [if_neg hs] at h
      injection h with h2
      exact ⟨h1, hs, h2.symm⟩
  · rw [if_pos h1] at h
    exact absurd h (by simp)

lemma applyOnBehalfUpdate_ok {now adminId : Nat} {a a2 : Application}
    (h : applyOnBehalfUpdate now adminId a = Except.ok a2) :
    a.status = AppStatus.approved ∧
    a2 = saveApplication now (some a.status)
      { a with status := AppStatus.applied, appliedBy := some adminId,
               appliedAt := some now } := by
  unfold applyOnBehalfUpdate at h
  by_cases hs : a.status = AppStatus.approved
  · rw [if_neg (by simp [hs])] at h
    injection h with h2
    exact ⟨hs, h2.symm⟩
  · rw [if_pos hs] at h
    exact absurd h (by simp)

/-! ## Claims -/

/-- C8: for every job and profile the computed match score is an
integer between 0 and 100, duplicates in the skill lists included
(the final Math.min clamp and the nonnegativity of every component). -/
theorem C8_score_bounds (job : ScoreJob) (profile : ScoreProfile) :
    0 ≤ calculateMatchScore job profile ∧ calculateMatchScore job profile ≤ 100 := by
  constructor
  · refine le_min ?_ (by norm_num)
    unfold jsRound
    refine Int.floor_nonneg.mpr ?_
    have hs := skillsScore_nonneg job profile
    have hl := locationScore_nonneg job profile
    have hj := jobTypeScore_nonneg job profile
    have hw := workTypeScore_nonneg job profile
    have h12 : (0 : ℚ) ≤ 1 / 2 := by norm_num
    linarith
  · exact min_le_right _ _

/-- C2 counterexample: on Scenario A the embedded scorer returns 60,
not the claimed 80 — with no preferred locations, the remote work type
alone never reaches the location bonus, whose guard requires a
non-empty preferred-locations list. -/
theorem C2_counterexample :
    calculateMatchScore scenarioAJob scenarioAProfile = 60 ∧
    calculateMatchScore scenarioAJob scenarioAProfile ≠ 80 := by
  refine ⟨scenarioA_score, ?_⟩
  rw [scenarioA_score]
  decide

/-- C2 amended: the location component contributes 0 whenever the
profile has no preferred locations (or the job has no location),
regardless of a remote work type; Scenario A therefore scores 60. -/
theorem C2_location_guard :
    (∀ job profile, profile.preferredLocations = [] → locationScore job profile = 0) ∧
    (∀ job profile, job.location = "" → locationScore job profile = 0) ∧
    calculateMatchScore scenarioAJob scenarioAProfile = 60 := by
  refine ⟨?_, ?_, scenarioA_score⟩
  · intro job profile h
    unfold locationScore
    simp [h]
  · intro job profile h
    unfold locationScore
    simp [h]

/-- Witness for C2_location_guard at Scenario A. -/
theorem C2_location_guard_witness :
    locationScore scenarioAJob scenarioAProfile = 0 ∧
    locationScore { scenarioAJob with location := "" } scenarioAProfile = 0 ∧
    calculateMatchScore scenarioAJob scenarioAProfile = 60 :=
  ⟨C2_location_guard.1 scenarioAJob scenarioAProfile rfl,
   C2_location_guard.2.1 { scenarioAJob with location := "" } scenarioAProfile rfl,
   C2_location_guard.2.2⟩

/-- C1 counterexample: an application the admin set to `rejected`
(terminal per the claim) is successfully withdrawn by the user, and an
application at `withdrawn` is successfully moved to `approved` by the
admin status update — neither attempt fails. -/
theorem C1_counterexample :
    ((adminUpdateApp 1 3 AppStatus.rejected none (newApplication 0 7 9 50)).status =
      AppStatus.rejected) ∧
    ((withdrawApplication 2 none (adminUpdateApp 1 3 AppStatus.rejected none
        (newApplication 0 7 9 50))).toOption.map Application.status =
      some AppStatus.withdrawn) ∧
    ((adminUpdateApp 1 3 AppStatus.withdrawn none (newApplication 0 7 9 50)).status =
      AppStatus.withdrawn) ∧
    ((updateApplicationStatusAdmin 2 4 AppStatus.approved none
        (adminUpdateApp 1 3 AppStatus.withdrawn none (newApplication 0 7 9 50))).toOption.map
        Application.status = some AppStatus.approved) := by
  decide

/-- C1 amended: only an already-withdrawn application is locked, and
only against the user-side operations (which fail with a 400
already-withdrawn error); the user's withdraw succeeds from every other
status including rejected, offer_rejected and rejected_by_employer, and
the admin status update performs no state check and succeeds from any
status. -/
theorem C1_terminal_lock :
    (∀ (now : Nat) (reason : Option String) (a : Application),
       a.status = AppStatus.withdrawn →
       withdrawApplication now reason a =
         Except.error ⟨"Application is already withdrawn", 400⟩) ∧
    (∀ (now : Nat) (reason : Option String) (a : Application),
       a.status ≠ AppStatus.withdrawn →
       ∃ a2, withdrawApplication now reason a = Except.ok a2 ∧
         a2.status = AppStatus.withdrawn) ∧
    (∀ (now adminId : Nat) (s : AppStatus) (notes : Option String) (a : Application),
       ∃ a2, updateApplicationStatusAdmin now adminId s notes a = Except.ok a2 ∧
         a2.status = s) := by
  refine ⟨?_, ?_, ?_⟩
  · intro now reason a h
    unfold withdrawApplication
    rw [if_pos h]
  · intro now reason a h
    unfold withdrawApplication
    rw [if_neg h]
    exact ⟨_, rfl, by rw [saveApplication_status]⟩
  · intro now adminId s notes a
    refine ⟨_, rfl, ?_⟩
    unfold adminUpdateApp
    rw [saveApplication_status]

/-- Witness for C1_terminal_lock on concrete applications. -/
theorem C1_terminal_lock_witness :
    (withdrawApplication 5 none
        (adminUpdateApp 1 3 AppStatus.withdrawn none (newApplication 0 1 2 50)) =
      Except.error ⟨"Application is already withdrawn", 400⟩) ∧
    (∃ a2, withdrawApplication 5 none
        (adminUpdateApp 1 3 AppStatus.rejected none (newApplication 0 1 2 50)) =
          Except.ok a2 ∧ a2.status = AppStatus.withdrawn) ∧
    (∃ a2, updateApplicationStatusAdmin 6 4 AppStatus.approved none
        (adminUpdateApp 1 3 AppStatus.withdrawn none (newApplication 0 1 2 50)) =
          Except.ok a2 ∧ a2.status = AppStatus.approved) :=
  ⟨C1_terminal_lock.1 5 none _ (by decide),
   C1_terminal_lock.2.1 5 none _ (by decide),
   C1_terminal_lock.2.2 6 4 AppStatus.approved none _⟩

/-- C5 counterexample: user 2's application, reviewed by admin 1, is
withdrawn by user 2 with a reason, yet the appended timeline entry
records updatedBy = admin 1 (the stored reviewedBy), not the
withdrawing user, and carries no note. -/
theorem C5_counterexample :
    (withdrawApplication 2 (some "no longer interested")
        (adminUpdateApp 1 1 AppStatus.approved none
          (newApplication 0 2 5 50))).toOption.map
      (fun a => (a.user, a.timeline.getLast?.map (fun e => (e.updatedBy, e.note)))) =
    some (2, some (some 1, none)) ∧ (1 : Nat) ≠ 2 := by
  decide

/-- C5 amended: each status-changing save appends an entry whose
updatedBy is the stored `reviewedBy || appliedBy` and whose note is
always absent: the admin status update does record the acting admin
(it sets reviewedBy first), but the user's withdraw attributes the
entry to the previous reviewer or applier, and apply-on-behalf
attributes it to the stored reviewer when one exists. -/
theorem C5_timeline_actor :
    (∀ (now adminId : Nat) (s : AppStatus) (notes : Option String) (a a2 : Application),
       updateApplicationStatusAdmin now adminId s notes a = Except.ok a2 →
       s ≠ a.status →
       a2.timeline.getLast? = some ⟨s, now, none, some adminId⟩) ∧
    (∀ (now : Nat) (reason : Option String) (a a2 : Application),
       withdrawApplication now reason a = Except.ok a2 →
       a2.timeline.getLast? =
         some ⟨AppStatus.withdrawn, now, none, orActor a.reviewedBy a.appliedBy⟩) ∧
    (∀ (now adminId : Nat) (a a2 : Application),
       applyOnBehalfUpdate now adminId a = Except.ok a2 →
       a2.timeline.getLast? =
         some ⟨AppStatus.applied, now, none, orActor a.reviewedBy (some adminId)⟩) := by
  refine ⟨?_, ?_, ?_⟩
  · intro now adminId s notes a a2 h hne
    unfold updateApplicationStatusAdmin adminUpdateApp at h
    injection h with h2
    rw [← h2, saveApplication_of_ne (by simpa using fun hc => hne hc.symm)]
    simp [orActor, List.getLast?_concat]
  · intro now reason a a2 h
    obtain ⟨hne, h2⟩ := withdrawApplication_ok h
    rw [h2, saveApplication_of_ne (by simpa using hne)]
    simp [List.getLast?_concat]
  · intro now adminId a a2 h
    obtain ⟨hap, h2⟩ := applyOnBehalfUpdate_ok h
    rw [h2, saveApplication_of_ne (by simp [hap])]
    simp [List.getLast?_concat]

/-- Witness for C5_timeline_actor on concrete applications. -/
theorem C5_timeline_actor_witness :
    ((adminUpdateApp 1 3 AppStatus.approved none
        (newApplication 0 1 2 50)).timeline.getLast? =
      some ⟨AppStatus.approved, 1, none, some 3⟩) ∧
    ((saveApplication 2 (some AppStatus.approved)
        { adminUpdateApp 1 3 AppStatus.approved none (newApplication 0 1 2 50) with
            status := AppStatus.withdrawn, statusUpdatedAt := some 2,
            withdrawalReason := some "done" }).timeline.getLast? =
      some ⟨AppStatus.withdrawn, 2, none,
        orActor (adminUpdateApp 1 3 AppStatus.approved none
          (newApplication 0 1 2 50)).reviewedBy
        (adminUpdateApp 1 3 AppStatus.approved none
          (newApplication 0 1 2 50)).appliedBy⟩) ∧
    ((saveApplication 2 (some AppStatus.approved)
        { adminUpdateApp 1 3 AppStatus.approved none (newApplication 0 1 2 50) with
            status := AppStatus.applied, appliedBy := some 4,
            appliedAt := some 2 }).timeline.getLast? =
      some ⟨AppStatus.applied, 2, none,
        orActor (adminUpdateApp 1 3 AppStatus.approved none
          (newApplication 0 1 2 50)).reviewedBy (some 4)⟩) :=
  ⟨C5_timeline_actor.1 1 3 AppStatus.approved none (newApplication 0 1 2 50) _ rfl
     (by decide),
   C5_timeline_actor.2.1 2 (some "done")
     (adminUpdateApp 1 3 AppStatus.approved none (newApplication 0 1 2 50)) _ rfl,
   C5_timeline_actor.2.2 2 4
     (adminUpdateApp 1 3 AppStatus.approved none (newApplication 0 1 2 50)) _ rfl⟩

lemma removeFirst_length {p : Application → Bool} {l : List Application}
    (h : ∃ a ∈ l, p a = true) : (removeFirst p l).length + 1 = l.length := by
  induction l with
  | nil =>
    obtain ⟨a, ha, _⟩ := h
    cases ha
  | cons b bs ih =>
    unfold removeFirst
    by_cases hb : p b = true
    · simp [hb]
    · rw [if_neg hb]
      have hbs : ∃ a ∈ bs, p a = true := by
        obtain ⟨a, ha, hpa⟩ := h
        rcases List.mem_cons.mp ha with rfl | hmem
        · exact absurd hpa hb
        · exact ⟨a, hmem, hpa⟩
      have := ih hbs
      simp only [List.length_cons]
      omega

lemma unsaveJob_ok {u j : Nat} {store store2 : List Application}
    (h : unsaveJob u j store = Except.ok store2) :
    (∃ a ∈ store, unsavePred u j a = true) ∧
    store2 = removeFirst (unsavePred u j) store := by
  unfold unsaveJob at h
  cases hf : store.find? (unsavePred u j) with
  | none =>
    rw [hf] at h
    exact absurd h (by simp)
  | some a =>
    rw [hf] at h
    injection h with h2
    exact ⟨⟨a, List.mem_of_find?_eq_some hf, List.find?_some hf⟩, h2.symm⟩

/-- C9 counterexample: a saved (pending_review) application is
physically removed from the store by unsaveJob — the set of existing
applications shrinks. -/
theorem C9_counterexample :
    unsaveJob 1 2 [newApplication 0 1 2 50] = Except.ok [] ∧
    ([] : List Application).length < [newApplication 0 1 2 50].length := by
  decide

/-- C9 amended: unsaveJob physically deletes exactly one pending_review
application of the pair; withdrawal, by contrast, only marks the
application withdrawn and never removes it. -/
theorem C9_never_deleted :
    (∀ (u j : Nat) (store store2 : List Application),
       unsaveJob u j store = Except.ok store2 →
       store2.length + 1 = store.length ∧
       ∃ a, a ∈ store ∧ a.user = u ∧ a.job = j ∧
         a.status = AppStatus.pending_review) ∧
    (∀ (now : Nat) (reason : Option String) (a a2 : Application),
       withdrawApplication now reason a = Except.ok a2 →
       a2.status = AppStatus.withdrawn) := by
  constructor
  · intro u j store store2 h
    obtain ⟨⟨a, ha, hp⟩, h2⟩ := unsaveJob_ok h
    constructor
    · rw [h2]
      exact removeFirst_length ⟨a, ha, hp⟩
    · simp only [unsavePred, Bool.and_eq_true, beq_iff_eq] at hp
      exact ⟨a, ha, hp.1.1, hp.1.2, hp.2⟩
  · intro now reason a a2 h
    obtain ⟨_, h2⟩ := withdrawApplication_ok h
    rw [h2, saveApplication_status]

/-- Witness for C9_never_deleted on a one-element store. -/
theorem C9_never_deleted_witness :
    (([] : List Application).length + 1 = [newApplication 0 1 2 50].length ∧
      ∃ a, a ∈ [newApplication 0 1 2 50] ∧ a.user = 1 ∧ a.job = 2 ∧
        a.status = AppStatus.pending_review) ∧
    (∃ a2, withdrawApplication 3 none (newApplication 0 1 2 50) = Except.ok a2 ∧
      a2.status = AppStatus.withdrawn) :=
  ⟨C9_never_deleted.1 1 2 [newApplication 0 1 2 50] [] (by decide),
   ⟨_, rfl, C9_never_deleted.2 3 none (newApplication 0 1 2 50) _ rfl⟩⟩

/-- C10 counterexample: cancelling an already-cancelled session
succeeds (only completed and failed are rejected), and the
result-processing path marks a cancelled session completed — both
contradict the claim that cancel succeeds only from
initiated/in_progress and that terminal states are final. -/
theorem C10_counterexample :
    cancelScraping ⟨0, SessStatus.cancelled, 0, 0⟩ =
      Except.ok ⟨0, SessStatus.cancelled, 0, 0⟩ ∧
    (finishProcessing ⟨0, SessStatus.cancelled, 0, 0⟩ ⟨1, 0⟩).status =
      SessStatus.completed := by
  decide

/-- C10 amended: cancel is rejected exactly from completed and failed
(so a cancelled session can be cancelled again), a successful cancel
always lands on cancelled, and the result-processing write sets status
to completed unconditionally, so cancelled is not enforced as final. -/
theorem C10_cancel_semantics :
    (∀ log : ScrapingLog,
       (∃ log2, cancelScraping log = Except.ok log2) ↔
         (log.status ≠ SessStatus.completed ∧ log.status ≠ SessStatus.failed)) ∧
    (∀ (log log2 : ScrapingLog), cancelScraping log = Except.ok log2 →
       log2.status = SessStatus.cancelled) ∧
    (∀ (log : ScrapingLog) (c : IngestCounts),
       (finishProcessing log c).status = SessStatus.completed) := by
  refine ⟨?_, ?_, ?_⟩
  · intro log
    constructor
    · rintro ⟨log2, h2⟩
      unfold cancelScraping at h2
      by_cases hc : log.status = SessStatus.completed ∨ log.status = SessStatus.failed
      · rw [if_pos hc] at h2
        exact absurd h2 (by simp)
      · push_neg at hc
        exact hc
    · intro h
      refine ⟨{ log with status := SessStatus.cancelled }, ?_⟩
      unfold cancelScraping
      rw [if_neg (by tauto)]
  · intro log log2 h
    unfold cancelScraping at h
    by_cases hc : log.status = SessStatus.completed ∨ log.status = SessStatus.failed
    · rw [if_pos hc] at h
      exact absurd h (by simp)
    · rw [if_neg hc] at h
      injection h with h2
      rw [← h2]
  · intro log c
    rfl

/-- Witness for C10_cancel_semantics on concrete sessions. -/
theorem C10_cancel_semantics_witness :
    (∃ log2, cancelScraping ⟨7, SessStatus.in_progress, 0, 0⟩ = Except.ok log2) ∧
    ((⟨7, SessStatus.cancelled, 0, 0⟩ : ScrapingLog).status = SessStatus.cancelled) ∧
    ((finishProcessing ⟨7, SessStatus.initiated, 0, 0⟩ ⟨2, 1⟩).status =
      SessStatus.completed) :=
  ⟨(C10_cancel_semantics.1 ⟨7, SessStatus.in_progress, 0, 0⟩).mpr (by decide),
   C10_cancel_semantics.2.1 ⟨7, SessStatus.in_progress, 0, 0⟩
     ⟨7, SessStatus.cancelled, 0, 0⟩ rfl,
   C10_cancel_semantics.2.2 ⟨7, SessStatus.initiated, 0, 0⟩ ⟨2, 1⟩⟩

lemma find?_append_of_none {α : Type} {p : α → Bool} {l1 l2 : List α}
    (h : l1.find? p = none) : (l1 ++ l2).find? p = l2.find? p := by
  induction l1 with
  | nil => rfl
  | cons b bs ih =>
    cases hpb : p b with
    | true =>
      rw [List.find?_cons_of_pos _ hpb] at h
      exact absurd h (by simp)
    | false =>
      rw [List.find?_cons_of_neg _ (by simp [hpb])] at h
      rw [List.cons_append, List.find?_cons_of_neg _ (by simp [hpb])]
      exact ih h

lemma newApplication_user (now u j : Nat) (score : Int) :
    (newApplication now u j score).user = u := by
  unfold newApplication
  rw [saveApplication_user]

lemma newApplication_job (now u j : Nat) (score : Int) :
    (newApplication now u j score).job = j := by
  unfold newApplication
  rw [saveApplication_job]

lemma findApp_insert_self {now u j : Nat} {score : Int} {store : List Application}
    (h : findApp store u j = none) :
    findApp (saveJobInsert now u j score store) u j =
      some (newApplication now u j score) := by
  unfold findApp at h ⊢
  unfold saveJobInsert
  rw [find?_append_of_none h]
  have hp : ((newApplication now u j score).user == u &&
      (newApplication now u j score).job == j) = true := by
    rw [Bool.and_eq_true, beq_iff_eq, beq_iff_eq]
    exact ⟨newApplication_user now u j score, newApplication_job now u j score⟩
  exact List.find?_cons_of_pos _ hp

lemma saveJob_ok {now u j : Nat} {jobs : List StoredJob}
    {store store2 : List Application}
    (h : saveJob now u j jobs store = Except.ok store2) :
    ∃ job, jobs.find? (fun jb => jb.id == j) = some job ∧ job.targetUser = u ∧
      findApp store u j = none ∧ store2 = saveJobInsert now u j job.matchScore store := by
  unfold saveJob at h
  split at h
  · exact absurd h (by simp)
  · next job hf =>
    split at h
    · exact absurd h (by simp)
    · next ht =>
      split at h
      · exact absurd h (by simp)
      · next hc =>
        injection h with h2
        exact ⟨job, hf, not_not.mp ht, hc, h2.symm⟩

/-- C3 counterexample: the Application schema declares no unique index
at all (in particular none on (user, job)), the check-then-insert
phases of two interleaved saveJob calls both pass the check on the same
initial store and both insert — leaving two Applications for the same
pair — and the user applyToJob duplicate path fails with a 400, not a
409 Conflict. -/
theorem C3_counterexample :
    (applicationIndexes.all (fun i => !i.unique) = true) ∧
    (saveJobCheck ([] : List Application) 1 2 = none ∧
     ((saveJobInsert 1 1 2 50 (saveJobInsert 0 1 2 50 [])).filter
        (fun a => a.user == 1 && a.job == 2)).length = 2) ∧
    (applyToJob 1 1 2 [⟨2, 1, 50, "active", "approved", "not_applied"⟩]
        (saveJobInsert 0 1 2 50 []) =
      Except.error ⟨"You have already applied to this job", 400⟩) := by
  decide

/-- C3 amended: sequentially, a second saveJob for a pair that already
has an Application fails with a 409 Conflict, but the uniqueness is
only an application-level check-then-insert: the schema declares no
unique (user, job) index, so storage-layer enforcement is absent and
interleaved concurrent attempts can both succeed. -/
theorem C3_sequential_conflict :
    (∀ (now now2 u j : Nat) (jobs : List StoredJob) (store store2 : List Application),
       saveJob now u j jobs store = Except.ok store2 →
       saveJob now2 u j jobs store2 =
         Except.error ⟨"You have already saved or applied to this job", 409⟩) ∧
    (applicationIndexes.all (fun i => !i.unique) = true) := by
  constructor
  · intro now now2 u j jobs store store2 h
    obtain ⟨job, hf, ht, hc, rfl⟩ := saveJob_ok h
    unfold saveJob
    split
    · next hf2 =>
      rw [hf2] at hf
      exact absurd hf (by simp)
    · next job2 hf2 =>
      rw [hf2] at hf
      injection hf with hjj
      subst hjj
      rw [if_neg (by simp [ht])]
      unfold saveJobCheck
      rw [findApp_insert_self hc]
  · decide

/-- Witness for C3_sequential_conflict on a concrete job and store. -/
theorem C3_sequential_conflict_witness :
    saveJob 1 1 2 [⟨2, 1, 50, "active", "approved", "not_applied"⟩]
        (saveJobInsert 0 1 2 50 []) =
      Except.error ⟨"You have already saved or applied to this job", 409⟩ ∧
    (applicationIndexes.all (fun i => !i.unique) = true) :=
  ⟨C3_sequential_conflict.1 0 1 1 2 [⟨2, 1, 50, "active", "approved", "not_applied"⟩]
     [] (saveJobInsert 0 1 2 50 []) (by decide),
   C3_sequential_conflict.2⟩

lemma findApp_some_fields {store : List Application} {u j : Nat} {a : Application}
    (h : findApp store u j = some a) : a.user = u ∧ a.job = j := by
  unfold findApp at h
  have hp := List.find?_some h
  rw [Bool.and_eq_true, beq_iff_eq, beq_iff_eq] at hp
  exact hp

lemma findApp_updateApp {store : List Application} {u j : Nat} {a : Application}
    (h : findApp store u j = some a) (a2 : Application)
    (hu : a2.user = u) (hj : a2.job = j) :
    findApp (updateApp store u j a2) u j = some a2 := by
  have hp2 : (a2.user == u && a2.job == j) = true := by
    rw [Bool.and_eq_true, beq_iff_eq, beq_iff_eq]
    exact ⟨hu, hj⟩
  unfold findApp at h ⊢
  unfold updateApp
  induction store with
  | nil => simp at h
  | cons b bs ih =>
    cases hpb : (b.user == u && b.job == j) with
    | true =>
      rw [List.map_cons]
      have hhead : (if (b.user == u && b.job == j) = true then a2 else b) = a2 :=
        if_pos hpb
      simp only [hhead]
      exact List.find?_cons_of_pos _ hp2
    | false =>
      rw [List.find?_cons_of_neg _ (by simp [hpb])] at h
      rw [List.map_cons]
      have hhead : (if (b.user == u && b.job == j) = true then a2 else b) = b := by
        rw [if_neg (by simp [hpb])]
      simp only [hhead]
      rw [List.find?_cons_of_neg _ (by simp [hpb])]
      exact ih h

/-- C6: apply-on-behalf, with the user, job, ownership and existing
application all resolving, fails with a 400 error exactly when the
application's status is not `approved`, and on `approved` it succeeds,
storing the application with status `applied` and appliedBy/appliedAt
recorded. -/
theorem C6_apply_gate (now adminId userId jobId : Nat) (users : List Nat)
    (jobs : List StoredJob) (store : List Application) (job : StoredJob)
    (a : Application)
    (hu : users.contains userId = true)
    (hj : jobs.find? (fun jb => jb.id == jobId) = some job)
    (ht : job.targetUser = userId)
    (ha : findApp store userId jobId = some a) :
    (a.status ≠ AppStatus.approved →
       applyToJobOnBehalf now adminId userId jobId users jobs store =
         Except.error ⟨"Application must be approved before applying", 400⟩) ∧
    (a.status = AppStatus.approved →
       ∃ store2 jobs2,
         applyToJobOnBehalf now adminId userId jobId users jobs store =
           Except.ok (store2, jobs2) ∧
         ∃ a2, findApp store2 userId jobId = some a2 ∧
           a2.status = AppStatus.applied ∧ a2.appliedBy = some adminId ∧
           a2.appliedAt = some now) := by
  constructor
  · intro hne
    unfold applyToJobOnBehalf
    rw [if_neg (by rw [hu]; decide)]
    split
    · next hf2 =>
      rw [hf2] at hj
      exact absurd hj (by simp)
    · next job2 hf2 =>
      rw [hf2] at hj
      injection hj with hjj
      subst hjj
      rw [if_neg (by simp [ht])]
      split
      · next ha2 =>
        rw [ha2] at ha
        exact absurd ha (by simp)
      · next a3 ha2 =>
        rw [ha2] at ha
        injection ha with haa
        subst haa
        have : applyOnBehalfUpdate now adminId a3 =
            Except.error ⟨"Application must be approved before applying", 400⟩ := by
          unfold applyOnBehalfUpdate
          rw [if_pos hne]
        rw [this]
  · intro happ
    unfold applyToJobOnBehalf
    rw [if_neg (by rw [hu]; decide)]
    split
    · next hf2 =>
      rw [hf2] at hj
      exact absurd hj (by simp)
    · next job2 hf2 =>
      rw [hf2] at hj
      injection hj with hjj
      subst hjj
      rw [if_neg (by simp [ht])]
      split
      · next ha2 =>
        rw [ha2] at ha
        exact absurd ha (by simp)
      · next a3 ha2 =>
        rw [ha2] at ha
        injection ha with haa
        subst haa
        have hupd : applyOnBehalfUpdate now adminId a3 =
            Except.ok (saveApplication now (some a3.status)
              { a3 with status := AppStatus.applied, appliedBy := some adminId,
                        appliedAt := some now }) := by
          unfold applyOnBehalfUpdate
          rw [if_neg (by simp [happ])]
        rw [hupd]
        refine ⟨_, _, rfl, ?_⟩
        obtain ⟨hau, haj⟩ := findApp_some_fields ha2
        refine ⟨_, findApp_updateApp ha2 _ ?_ ?_, ?_, ?_, ?_⟩
        · rw [saveApplication_user]
          exact hau
        · rw [saveApplication_job]
          exact haj
        · rw [saveApplication_status]
        · rw [saveApplication_appliedBy]
        · rw [saveApplication_appliedAt]

/-- Witness for C6_apply_gate on a concrete approved application. -/
theorem C6_apply_gate_witness :
    ((adminUpdateApp 1 3 AppStatus.rejected none (newApplication 0 1 2 50)).status ≠
        AppStatus.approved →
      applyToJobOnBehalf 2 4 1 2 [1] [⟨2, 1, 50, "active", "approved", "not_applied"⟩]
          [adminUpdateApp 1 3 AppStatus.rejected none (newApplication 0 1 2 50)] =
        Except.error ⟨"Application must be approved before applying", 400⟩) ∧
    ((adminUpdateApp 1 3 AppStatus.approved none (newApplication 0 1 2 50)).status =
        AppStatus.approved →
      ∃ store2 jobs2,
        applyToJobOnBehalf 2 4 1 2 [1] [⟨2, 1, 50, "active", "approved", "not_applied"⟩]
            [adminUpdateApp 1 3 AppStatus.approved none (newApplication 0 1 2 50)] =
          Except.ok (store2, jobs2) ∧
        ∃ a2, findApp store2 1 2 = some a2 ∧
          a2.status = AppStatus.applied ∧ a2.appliedBy = some 4 ∧
          a2.appliedAt = some 2) ∧
    ((adminUpdateApp 1 3 AppStatus.rejected none (newApplication 0 1 2 50)).status ≠
        AppStatus.approved) ∧
    ((adminUpdateApp 1 3 AppStatus.approved none (newApplication 0 1 2 50)).status =
        AppStatus.approved) :=
  ⟨(C6_apply_gate 2 4 1 2 [1] [⟨2, 1, 50, "active", "approved", "not_applied"⟩]
      [adminUpdateApp 1 3 AppStatus.rejected none (newApplication 0 1 2 50)]
      ⟨2, 1, 50, "active", "approved", "not_applied"⟩
      (adminUpdateApp 1 3 AppStatus.rejected none (newApplication 0 1 2 50))
      (by decide) (by decide) (by decide) (by decide)).1,
   (C6_apply_gate 2 4 1 2 [1] [⟨2, 1, 50, "active", "approved", "not_applied"⟩]
      [adminUpdateApp 1 3 AppStatus.approved none (newApplication 0 1 2 50)]
      ⟨2, 1, 50, "active", "approved", "not_applied"⟩
      (adminUpdateApp 1 3 AppStatus.approved none (newApplication 0 1 2 50))
      (by decide) (by decide) (by decide) (by decide)).2,
   by decide, by decide⟩

lemma mkIngJob_matches (u : Nat) (profile : ScoreProfile) (p : RawPosting) :
    matchesDedupKey u p (mkIngJob u profile p) = true := by
  unfold matchesDedupKey mkIngJob
  simp

lemma ingestPosting_dup {u : Nat} {profile : ScoreProfile} {store : List IngJob}
    {c : IngestCounts} {p : RawPosting}
    (h : (store.find? (matchesDedupKey u p)).isSome = true) :
    ingestPosting u profile (store, c) p =
      (store, { c with duplicatesSkipped := c.duplicatesSkipped + 1 }) := by
  obtain ⟨x, hx⟩ := Option.isSome_iff_exists.mp h
  simp only [ingestPosting]
  rw [hx]

lemma ingestPosting_new {u : Nat} {profile : ScoreProfile} {store : List IngJob}
    {c : IngestCounts} {p : RawPosting}
    (h : store.find? (matchesDedupKey u p) = none) :
    ingestPosting u profile (store, c) p =
      (store ++ [mkIngJob u profile p], { c with jobsSaved := c.jobsSaved + 1 }) := by
  simp only [ingestPosting]
  rw [h]

/-- C7: a posting whose (targetUser, title, company, location) exactly
matches an existing Job is skipped, counted as a duplicate, and leaves
the store untouched; for a fresh posting, a batch containing it twice
persists exactly one new Job with jobsSaved = 1 and
duplicatesSkipped = 1. -/
theorem C7_dedup :
    (∀ (u : Nat) (profile : ScoreProfile) (store : List IngJob) (p : RawPosting),
       (store.find? (matchesDedupKey u p)).isSome = true →
       processBatch u profile store [p] = (store, ⟨0, 1⟩)) ∧
    (∀ (u : Nat) (profile : ScoreProfile) (store : List IngJob) (p : RawPosting),
       store.find? (matchesDedupKey u p) = none →
       processBatch u profile store [p, p] =
         (store ++ [mkIngJob u profile p], ⟨1, 1⟩)) := by
  constructor
  · intro u profile store p hsome
    unfold processBatch
    rw [List.foldl_cons, List.foldl_nil, ingestPosting_dup hsome]
  · intro u profile store p hnone
    unfold processBatch
    rw [List.foldl_cons, List.foldl_cons, List.foldl_nil, ingestPosting_new hnone]
    have h2 : (store ++ [mkIngJob u profile p]).find? (matchesDedupKey u p) =
        some (mkIngJob u profile p) := by
      rw [find?_append_of_none hnone]
      exact List.find?_cons_of_pos _ (mkIngJob_matches u profile p)
    rw [ingestPosting_dup (by rw [h2]; rfl)]

/-- Witness for C7_dedup: a duplicate against an existing store entry
and a two-copy batch on an empty store. -/
theorem C7_dedup_witness :
    processBatch 1 scenarioAProfile
        [⟨1, "Dev", "Acme", "Lahore", "onsite", "full_time", [], 60, "active", "pending"⟩]
        [⟨"Dev", "Acme", "Lahore", "", "", []⟩] =
      ([⟨1, "Dev", "Acme", "Lahore", "onsite", "full_time", [], 60, "active", "pending"⟩],
        ⟨0, 1⟩) ∧
    processBatch 1 scenarioAProfile []
        [⟨"Dev", "Acme", "Lahore", "", "", []⟩, ⟨"Dev", "Acme", "Lahore", "", "", []⟩] =
      ([] ++ [mkIngJob 1 scenarioAProfile ⟨"Dev", "Acme", "Lahore", "", "", []⟩],
        ⟨1, 1⟩) :=
  ⟨C7_dedup.1 1 scenarioAProfile
     [⟨1, "Dev", "Acme", "Lahore", "onsite", "full_time", [], 60, "active", "pending"⟩]
     ⟨"Dev", "Acme", "Lahore", "", "", []⟩ (by decide),
   C7_dedup.2 1 scenarioAProfile [] ⟨"Dev", "Acme", "Lahore", "", "", []⟩ rfl⟩

lemma saveApplication_of_eq {now : Nat} {a : Application} {old : Option AppStatus}
    (h : old = some a.status) : saveApplication now old a = a := by
  unfold saveApplication
  rw [if_neg (by simp [h])]

lemma newApplication_eval (now u j : Nat) (score : Int) :
    newApplication now u j score =
      { user := u, job := j, status := AppStatus.pending_review, matchScore := score,
        adminNotes := none, userNotes := none, coverLetter := none,
        applicationMethod := "auto", withdrawalReason := none,
        reviewedBy := none, reviewedAt := none, appliedBy := none, appliedAt := none,
        statusUpdatedAt := none,
        timeline := [⟨AppStatus.pending_review, now, none, none⟩] } := by
  unfold newApplication
  rw [saveApplication_of_ne (by simp)]
  rfl

lemma pushed_invariant {now : Nat} {a b : Application} {held : List AppStatus}
    {s : AppStatus}
    (hne : some a.status ≠ some b.status)
    (hbs : b.status = s)
    (htl : b.timeline = a.timeline)
    (ih2 : ∀ x ∈ held, x ∈ a.timeline.map TimelineEntry.status) :
    (saveApplication now (some a.status) b).status ∈ held ++ [s] ∧
    (∀ x ∈ held ++ [s],
       x ∈ (saveApplication now (some a.status) b).timeline.map TimelineEntry.status) ∧
    (saveApplication now (some a.status) b).timeline.getLast?.map TimelineEntry.status =
      some (saveApplication now (some a.status) b).status := by
  rw [saveApplication_of_ne hne]
  refine ⟨?_, ?_, ?_⟩
  · simp [hbs]
  · intro x hx
    rcases List.mem_append.mp hx with hx | hx
    · have hmem := ih2 x hx
      simp only [List.map_append]
      rw [htl]
      exact List.mem_append_left _ hmem
    · simp only [List.mem_singleton] at hx
      subst hx
      simp [List.map_append, hbs]
  · simp [List.getLast?_concat]

/-- The inductive invariant of the Application lifecycle: the current
status is among the held statuses, every held status occurs in the
timeline, and the last timeline entry carries the current status. -/
lemma reached_invariant {a : Application} {held : List AppStatus} (h : Reached a held) :
    a.status ∈ held ∧
    (∀ s ∈ held, s ∈ a.timeline.map TimelineEntry.status) ∧
    a.timeline.getLast?.map TimelineEntry.status = some a.status := by
  induction h with
  | created now u j score =>
    rw [newApplication_eval]
    refine ⟨by simp, ?_, by simp⟩
    intro s hs
    simp only [List.mem_singleton] at hs
    subst hs
    simp
  | @withdraw a a2 held now reason h1 h2 ih =>
    obtain ⟨hne, rfl⟩ := withdrawApplication_ok h2
    refine pushed_invariant ?_ rfl rfl ih.2.1
    simpa using hne
  | @userStatus a a2 held now s h1 h2 ih =>
    obtain ⟨hs, hne, rfl⟩ := updateApplicationStatusUser_ok h2
    subst hs
    refine pushed_invariant ?_ rfl rfl ih.2.1
    simpa using hne
  | @adminStatus a a2 held now adminId s notes h1 h2 ih =>
    injection h2 with h3
    rw [← h3]
    unfold adminUpdateApp
    by_cases hss : s = a.status
    · rw [saveApplication_of_eq (by simp [hss])]
      refine ⟨by simp, ?_, ?_⟩
      · intro x hx
        rcases List.mem_append.mp hx with hx | hx
        · exact ih.2.1 x hx
        · simp only [List.mem_singleton] at hx
          subst hx
          exact ih.2.1 _ (hss ▸ ih.1)
      · show Option.map TimelineEntry.status a.timeline.getLast? = some s
        rw [hss]
        exact ih.2.2
    · refine pushed_invariant ?_ rfl rfl ih.2.1
      simpa using fun hc => hss hc.symm
  | @applyBehalf a a2 held now adminId h1 h2 ih =>
    obtain ⟨hap, rfl⟩ := applyOnBehalfUpdate_ok h2
    refine pushed_invariant ?_ rfl rfl ih.2.1
    simp [hap]
  | @notes a a2 held now notes h1 h2 ih =>
    injection h2 with h3
    rw [← h3, saveApplication_of_eq (by simp)]
    exact ih

/-- C4: for every reachable Application, the timeline (appended in the
same save as every status write by the pre-save hook) has at least as
many entries as distinct statuses ever held, and its last entry carries
the current status. -/
theorem C4_timeline_completeness {a : Application} {held : List AppStatus}
    (h : Reached a held) :
    held.toFinset.card ≤ a.timeline.length ∧
    a.timeline.getLast?.map TimelineEntry.status = some a.status := by
  obtain ⟨h1, h2, h3⟩ := reached_invariant h
  refine ⟨?_, h3⟩
  have hsub : held.toFinset ⊆ (a.timeline.map TimelineEntry.status).toFinset := by
    intro s hs
    rw [List.mem_toFinset] at hs ⊢
    exact h2 s hs
  calc held.toFinset.card
      ≤ (a.timeline.map TimelineEntry.status).toFinset.card := Finset.card_le_card hsub
    _ ≤ (a.timeline.map TimelineEntry.status).length :=
        (a.timeline.map TimelineEntry.status).toFinset_card_le
    _ = a.timeline.length := List.length_map _ _

/-- Witness for C4_timeline_completeness at a freshly created
application. -/
theorem C4_timeline_completeness_witness :
    [AppStatus.pending_review].toFinset.card ≤ (newApplication 0 1 2 50).timeline.length ∧
    (newApplication 0 1 2 50).timeline.getLast?.map TimelineEntry.status =
      some (newApplication 0 1 2 50).status :=
  C4_timeline_completeness (Reached.created 0 1 2 50)

end AutoApply
